import Mathlib

/-!
Shallow embedding of `src/skills/design-evolve/scripts/eval_helper.py`.

The module drives a browser-hosted tldraw canvas through a remote eval
server: each Python function assembles a JavaScript snippet (with all
parameters embedded as literals) and ships it for execution.  The
embedding below models, in Lean:

  * the JavaScript computations those snippets perform on the canvas
    state (lists of shapes), translated statement by statement; and
  * the thin Python wrappers around the transport (`eval_code`,
    `health_check`, and the query helpers that fall back to `[]`).

Coordinates are JavaScript numbers; arithmetic on them in the modelled
code paths is plain +, -, *, /, comparison and `Math.round`, modelled
over `ℚ` with `Math.round` as `⌊q + 1/2⌋` (JavaScript rounds half-values
toward positive infinity).
-/

namespace EvalHelper

/-- JavaScript `Math.round`: round to the nearest integer, halves toward
positive infinity. -/
def jsRound (q : ℚ) : ℤ := ⌊q + 1/2⌋

/-- An axis-aligned rectangle `(x, y, width, height)`, as returned by
`editor.getShapePageBounds` (fields `x`, `y`, `w`, `h`). -/
structure Region where
  x : ℚ
  y : ℚ
  w : ℚ
  h : ℚ
deriving DecidableEq, Repr

/-- The `props` of a tldraw shape, restricted to the fields the modelled
code reads: `props.w` / `props.h` / `props.assetId` on image shapes,
`props.w` / `props.h` on geo (frame) shapes, the rich-text payload on
text shapes, and `props.start` / `props.end` on arrow shapes. -/
inductive ShapeProps where
  | image (w h : ℚ) (assetId : String)
  | geo (w h : ℚ)
  | text (content : String)
  | arrow (startX startY endX endY : ℚ)
  | other
deriving DecidableEq, Repr

/-- Access `props.w`.  The modelled code only reads `props.w` on shapes
that have it (image and geo shapes, always behind a `type === 'image'`
filter or on a freshly created geo shape); the default arm is never hit
on those paths. -/
def ShapeProps.w : ShapeProps → ℚ
  | .image w _ _ => w
  | .geo w _ => w
  | _ => 0

/-- Access `props.h`; same reading as `ShapeProps.w`. -/
def ShapeProps.h : ShapeProps → ℚ
  | .image _ h _ => h
  | .geo _ h => h
  | _ => 0

/-- Access `props.assetId` (present on image shapes). -/
def ShapeProps.assetId : ShapeProps → String
  | .image _ _ a => a
  | _ => ""

/-- A shape on the current page: id, type tag (`'image'`, `'geo'`,
`'text'`, `'arrow'`, …), position `x`/`y`, and its props. -/
structure Shape where
  id : String
  type : String
  x : ℚ
  y : ℚ
  props : ShapeProps
deriving DecidableEq, Repr

/-- The rectangle a shape claims through its own fields,
`(s.x, s.y, s.props.w, s.props.h)`. -/
def shapeRegion (s : Shape) : Region :=
  ⟨s.x, s.y, s.props.w, s.props.h⟩

/-- Natural pixel dimensions of a decoded image (`img.naturalWidth`,
`img.naturalHeight` after the `Image` loads from the data URL). -/
structure ImgDims where
  naturalWidth : ℚ
  naturalHeight : ℚ
deriving DecidableEq, Repr

/-- The record `{ id, x, y, w, h, assetId }` that `get_images` and
`get_latest_images` map image shapes to. -/
structure ImageInfo where
  id : String
  x : ℚ
  y : ℚ
  w : ℚ
  h : ℚ
  assetId : String
deriving DecidableEq, Repr

/-- `s => ({ id: String(s.id), x: s.x, y: s.y, w: s.props.w,
h: s.props.h, assetId: String(s.props.assetId) })`. -/
def imageInfoOf (s : Shape) : ImageInfo :=
  ⟨s.id, s.x, s.y, s.props.w, s.props.h, s.props.assetId⟩

/-! ### Stable sorting

The JavaScript snippets sort with `Array.prototype.sort` and a numeric
comparator; that sort is stable, so for a total comparator it computes
the unique stable sorted permutation — the same list insertion sort
computes.  `le a b` models `comparator(a, b) <= 0`. -/

/-- Insert `a` before the first element `b` with `le a b`. -/
def insertLE {α : Type} (le : α → α → Bool) (a : α) : List α → List α
  | [] => [a]
  | b :: bs => if le a b then a :: b :: bs else b :: insertLE le a bs

/-- Stable insertion sort by the comparator `le`. -/
def sortLE {α : Type} (le : α → α → Bool) : List α → List α
  | [] => []
  | x :: xs => insertLE le x (sortLE le xs)

theorem mem_insertLE {α : Type} (le : α → α → Bool) (a b : α) :
    ∀ l : List α, b ∈ insertLE le a l ↔ b = a ∨ b ∈ l := by
  intro l
  induction l with
  | nil => simp [insertLE]
  | cons c cs ih =>
      by_cases h : le a c = true
      · simp [insertLE, h]
      · simp only [insertLE, if_neg h, List.mem_cons, ih]
        tauto

theorem mem_sortLE {α : Type} (le : α → α → Bool) (b : α) :
    ∀ l : List α, b ∈ sortLE le l ↔ b ∈ l := by
  intro l
  induction l with
  | nil => simp [sortLE]
  | cons c cs ih => simp [sortLE, mem_insertLE, ih]

theorem pairwise_insertLE {α : Type} (le : α → α → Bool)
    (htot : ∀ x y, le x y = true ∨ le y x = true)
    (htrans : ∀ x y z, le x y = true → le y z = true → le x z = true)
    (a : α) :
    ∀ l : List α, l.Pairwise (fun x y => le x y = true) →
      (insertLE le a l).Pairwise (fun x y => le x y = true) := by
  intro l
  induction l with
  | nil => intro _; simpa [insertLE] using List.Pairwise.nil
  | cons c cs ih =>
      intro hp
      rcases List.pairwise_cons.mp hp with ⟨hc, hcs⟩
      by_cases h : le a c = true
      · rw [insertLE, if_pos h]
        refine List.pairwise_cons.mpr ⟨?_, hp⟩
        intro b hb
        rcases List.mem_cons.mp hb with rfl | hb
        · exact h
        · exact htrans a c b h (hc b hb)
      · rw [insertLE, if_neg h]
        refine List.pairwise_cons.mpr ⟨?_, ih hcs⟩
        intro b hb
        rcases (mem_insertLE le a b cs).mp hb with rfl | hb
        · rcases htot b c with hbc | hcb
          · exact absurd hbc h
          · exact hcb
        · exact hc b hb

theorem pairwise_sortLE {α : Type} (le : α → α → Bool)
    (htot : ∀ x y, le x y = true ∨ le y x = true)
    (htrans : ∀ x y z, le x y = true → le y z = true → le x z = true) :
    ∀ l : List α, (sortLE le l).Pairwise (fun x y => le x y = true) := by
  intro l
  induction l with
  | nil => simpa [sortLE] using List.Pairwise.nil
  | cons c cs ih => exact pairwise_insertLE le htot htrans c _ ih

/-! ### place_image: placement position (lines 96–102)

`const existing = ...filter(s => s.type === 'image'); let yPos = 100;
const xPos = 100; if (existing.length > 0) { let maxBottom = 0;
for (const s of existing) { const bottom = s.y + s.props.h;
if (bottom > maxBottom) maxBottom = bottom; } yPos = maxBottom + 160; }` -/

/-- The recurring `.filter(s => s.type === 'image')` over the current
page shapes. -/
def imagesOf (shapes : List Shape) : List Shape :=
  shapes.filter (fun s => s.type == "image")

/-- One step of the `maxBottom` loop body. -/
def maxBottomStep (m : ℚ) (s : Shape) : ℚ :=
  if s.y + s.props.h > m then s.y + s.props.h else m

/-- The `(xPos, yPos)` pair `place_image` uses when no explicit
coordinates are given. -/
def placePosition (shapes : List Shape) : ℚ × ℚ :=
  let existing := imagesOf shapes
  if existing.length > 0 then
    (100, existing.foldl maxBottomStep 0 + 160)
  else
    (100, 100)

theorem maxBottom_fold_spec (l : List Shape) : ∀ a : ℚ,
    a ≤ l.foldl maxBottomStep a ∧
    (∀ s ∈ l, s.y + s.props.h ≤ l.foldl maxBottomStep a) ∧
    (l.foldl maxBottomStep a = a ∨
      ∃ s ∈ l, l.foldl maxBottomStep a = s.y + s.props.h) := by
  induction l with
  | nil => intro a; simp
  | cons c cs ih =>
      intro a
      rcases ih (maxBottomStep a c) with ⟨h₁, h₂, h₃⟩
      refine ⟨?_, ?_, ?_⟩
      · refine le_trans ?_ h₁
        unfold maxBottomStep
        split <;> simp_all <;> linarith
      · intro s hs
        rcases List.mem_cons.mp hs with rfl | hs
        · refine le_trans ?_ h₁
          unfold maxBottomStep
          split <;> simp_all <;> linarith
        · exact h₂ s hs
      · rcases h₃ with h | ⟨s, hs, hval⟩
        · rw [List.foldl_cons, h]
          unfold maxBottomStep
          split
          · exact Or.inr ⟨c, List.mem_cons_self c cs, rfl⟩
          · exact Or.inl rfl
        · exact Or.inr ⟨s, List.mem_cons_of_mem c hs, by simpa using hval⟩

/-! ### Display scaling (place_image lines 108–109, place_evolved_image
lines 278–280)

`const scale = displayWidth / img.naturalWidth;
const h = Math.round(img.naturalHeight * scale);` -/

/-- Display height computed by the placement snippets. -/
def displayHeight (naturalWidth naturalHeight displayWidth : ℚ) : ℚ :=
  (jsRound (naturalHeight * (displayWidth / naturalWidth)) : ℚ)

/-- The image shape `place_image` creates: position from the explicit
coordinates when given, else from `placePosition`; `w` is the requested
display width and `h` the scaled height. -/
def place_image (shapes : List Shape) (nat : ImgDims) (displayWidth : ℚ)
    (sidPart assetIdPart : String) (explicitPos : Option (ℚ × ℚ)) : Shape :=
  let pos := match explicitPos with
    | some p => p
    | none => placePosition shapes
  ⟨"shape:" ++ sidPart, "image", pos.1, pos.2,
    .image displayWidth
      (displayHeight nat.naturalWidth nat.naturalHeight displayWidth)
      ("asset:" ++ assetIdPart)⟩

/-! ### detect_annotations (lines 171–209)

The snippet collects frames / labels / images / evolve-arrows into
`excludeIds`, then for each frame (skipping frames without page bounds)
filters `allShapes` by: not excluded, has page bounds, and the strict
AABB overlap test against the frame's bounds.  Page bounds come from
`editor.getShapePageBounds`, modelled as an oracle
`bounds : String → Option Region`. -/

/-- JavaScript `String.prototype.startsWith`: character-level prefix
test (`String.startsWith` in Lean does not reduce in the kernel, so the
test is modelled directly on the character lists). -/
def strStartsWith (s pre : String) : Bool := pre.data.isPrefixOf s.data

/-- The overlap test on line 189: `sb.x < fb.x + fb.w && sb.x + sb.w >
fb.x && sb.y < fb.y + fb.h && sb.y + sb.h > fb.y`. -/
def overlapTest (fb sb : Region) : Bool :=
  decide (sb.x < fb.x + fb.w) && decide (sb.x + sb.w > fb.x) &&
  decide (sb.y < fb.y + fb.h) && decide (sb.y + sb.h > fb.y)

/-- Membership of an id in the `excludeIds` set: some shape on the page
with this id is a frame / label / evolve-arrow (by reserved id prefix)
or an image shape. -/
def inExcludeSet (allShapes : List Shape) (i : String) : Bool :=
  allShapes.any (fun t => t.id == i &&
    (strStartsWith t.id "shape:frame-" || strStartsWith t.id "shape:label-" ||
     strStartsWith t.id "shape:evolve-arrow-" || t.type == "image"))

/-- The `annotations` filter for one frame with page bounds `fb`. -/
def frameAnnotations (allShapes : List Shape)
    (bounds : String → Option Region) (fb : Region) : List Shape :=
  allShapes.filter (fun s =>
    !inExcludeSet allShapes s.id &&
    match bounds s.id with
    | none => false
    | some sb => overlapTest fb sb)

/-- The per-frame results of `detect_annotations`: for each frame shape
(in page order, frames without bounds skipped by the `continue`), its id
paired with its annotation list. -/
def detectAnnotationsRemote (allShapes : List Shape)
    (bounds : String → Option Region) : List (String × List Shape) :=
  let frames := allShapes.filter (fun s => strStartsWith s.id "shape:frame-")
  frames.filterMap (fun frame =>
    match bounds frame.id with
    | none => none
    | some fb => some (frame.id, frameAnnotations allShapes bounds fb))

/-! ### create_frames (lines 138–166) -/

/-- The frame rectangle the sizing rule produces around a region:
`(x - padding, y - topPadding, width + 2*padding,
height + topPadding + padding)`. -/
def frameRegion (r : Region) (padding topPadding : ℚ) : Region :=
  ⟨r.x - padding, r.y - topPadding, r.w + padding * 2,
   r.h + topPadding + padding⟩

/-- `frame.x ≤ R.x - padding` etc. with strict inequalities on every
side: the outer region strictly contains the inner one. -/
def strictlyContains (outer inner : Region) : Prop :=
  outer.x < inner.x ∧ outer.y < inner.y ∧
  inner.x + inner.w < outer.x + outer.w ∧
  inner.y + inner.h < outer.y + outer.h

/-- The geo frame shape created for image number `i` (0-indexed). -/
def frameShapeFor (pfx : String) (i : ℕ) (img : Shape)
    (padding topPadding : ℚ) : Shape :=
  ⟨"shape:frame-" ++ pfx ++ toString i, "geo",
   img.x - padding, img.y - topPadding,
   .geo (img.props.w + padding * 2) (img.props.h + topPadding + padding)⟩

/-- The text label created for image number `i` (0-indexed): centered
above the image, reading `Candidate (i+1)` plus the iteration label. -/
def labelShapeFor (pfx : String) (i : ℕ) (img : Shape)
    (topPadding : ℚ) (iterLabel : String) : Shape :=
  ⟨"shape:label-" ++ pfx ++ toString i, "text",
   img.x + img.props.w / 2, img.y - topPadding + 8,
   .text ("Candidate " ++ toString (i + 1) ++ iterLabel)⟩

/-- The `for (let i = 0; ...)` loop of `create_frames`, producing the
(frame, label) pair for each image. -/
def createFramesAux (pfx iterLabel : String) (padding topPadding : ℚ) :
    ℕ → List Shape → List (Shape × Shape)
  | _, [] => []
  | i, img :: rest =>
      (frameShapeFor pfx i img padding topPadding,
       labelShapeFor pfx i img topPadding iterLabel) ::
      createFramesAux pfx iterLabel padding topPadding (i + 1) rest

/-- The shapes `create_frames` creates: one frame and one label per
image, images taken in ascending-`y` order. -/
def create_frames (shapes : List Shape) (padding topPadding : ℚ)
    (pfx iterLabel : String) : List (Shape × Shape) :=
  createFramesAux pfx iterLabel padding topPadding 0
    (sortLE (fun a b => a.y ≤ b.y) (imagesOf shapes))

/-! ### place_evolved_image (lines 262–311) -/

/-- The value the `place_evolved_image` snippet returns: either the
not-found string (line 274) or the `{ newShapeId, newX, newY, displayW,
displayH }` record. -/
inductive EvolveOutcome where
  | notFound (msg : String)
  | placed (newShapeId : String) (newX newY displayW displayH : ℚ)
deriving DecidableEq, Repr

/-- The `displayH` component of a successful outcome. -/
def EvolveOutcome.displayH : EvolveOutcome → Option ℚ
  | .notFound _ => none
  | .placed _ _ _ _ h => some h

/-- The outcome of `place_evolved_image` together with the list of
shapes it creates (new image, arrow, frame, label — in creation order;
empty in the not-found case).  `rand1`/`rand2` stand for the
`Math.random().toString(36).substr(2, 6)` suffixes. -/
def place_evolved_image (shapes : List Shape) (origShapeId : String)
    (iteration candidateNum : ℤ) (gap : ℚ) (nat : ImgDims)
    (rand1 rand2 : String) : EvolveOutcome × List Shape :=
  let allImages := imagesOf shapes
  match allImages.find? (fun s => s.id == origShapeId) with
  | none => (.notFound ("original not found: " ++ origShapeId), [])
  | some orig =>
      let displayW := orig.props.w
      let displayH := displayHeight nat.naturalWidth nat.naturalHeight displayW
      let newX := orig.x + orig.props.w + gap
      let newY := orig.y
      let i := candidateNum - 1
      let newShapeId := "shape:evolved-" ++ toString iteration ++ "-" ++
        toString candidateNum ++ "-" ++ rand1
      let newAssetId := "asset:evolved-" ++ toString iteration ++ "-" ++
        toString candidateNum ++ "-" ++ rand2
      let newImage : Shape :=
        ⟨newShapeId, "image", newX, newY, .image displayW displayH newAssetId⟩
      let arrowShape : Shape :=
        ⟨"shape:evolve-arrow-" ++ toString iteration ++ "-" ++ toString i,
         "arrow", orig.x + orig.props.w, orig.y + orig.props.h / 2,
         .arrow 0 0 (gap - 20) 0⟩
      let frameShape : Shape :=
        ⟨"shape:frame-iter" ++ toString iteration ++ "-" ++ toString i,
         "geo", newX - 60, newY - 80,
         .geo (displayW + 60 * 2) (displayH + 80 + 60)⟩
      let labelShape : Shape :=
        ⟨"shape:label-iter" ++ toString iteration ++ "-" ++ toString i,
         "text", newX + displayW / 2, newY - 80 + 8,
         .text ("Candidate " ++ toString candidateNum ++ " — Iter " ++
           toString iteration)⟩
      (.placed newShapeId newX newY displayW displayH,
       [newImage, arrowShape, frameShape, labelShape])

/-- The relative `props.end.x` of an arrow shape. -/
def arrowEndX (s : Shape) : ℚ :=
  match s.props with
  | .arrow _ _ ex _ => ex
  | _ => 0

/-! ### get_latest_images (lines 314–333) and get_images (lines 66–76) -/

/-- The row bucket key on line 320: `Math.round(img.y / 50) * 50`. -/
def rowKey (y : ℚ) : ℤ := jsRound (y / 50) * 50

/-- The list the `get_latest_images` snippet returns: group image shapes
into rows by `rowKey`, in each row take the first element of the
stable descending-`x` sort (`row.sort((a, b) => b.x - a.x); row[0]`),
map it to its record, and sort the results by ascending `y`.
Row enumeration order does not affect the result: two rows never hold
equal `y` values (equal `y` means equal `rowKey`), so the final sort
determines the order completely. -/
def getLatestImagesRemote (shapes : List Shape) : List ImageInfo :=
  sortLE (fun a b => a.y ≤ b.y)
    (((imagesOf shapes).map (fun s => rowKey s.y)).dedup.filterMap (fun k =>
      (sortLE (fun a b => b.x ≤ a.x)
        ((imagesOf shapes).filter (fun s => rowKey s.y == k))).head?.map
        imageInfoOf))

/-- The list the `get_images` snippet returns: image shapes sorted by
ascending `y`, mapped to their records. -/
def getImagesRemote (shapes : List Shape) : List ImageInfo :=
  (sortLE (fun a b => a.y ≤ b.y) (imagesOf shapes)).map imageInfoOf

/-! ### Transport (lines 28–49) and the query wrappers

`eval_code` posts the code and parses the JSON response; a `URLError`
(remote unreachable, request error) is caught and turned into
`{"success": False, "error": str(e)}` — the function never raises on
transport failure.  `health_check` likewise returns
`{"status": "error", "error": str(e)}` on `URLError`. -/

/-- What a call to `urlopen` can do: deliver a parsed response body, or
raise `URLError` with a message. -/
inductive Transport (α : Type) where
  | ok (response : α)
  | urlError (msg : String)

/-- The parsed JSON dict `{success, result?, error?}` from the eval
server.  Python's `result.get("success")` truthiness test treats a
missing flag like `False`; a missing key is modelled as `success =
false` / `result = none` / `error = none`. -/
structure RemoteResult (α : Type) where
  success : Bool
  result : Option α
  error : Option String
deriving DecidableEq, Repr

/-- `eval_code`: relay the server response; on `URLError` return
`{"success": False, "error": str(e)}`. -/
def eval_code {α : Type} (t : Transport (RemoteResult α)) : RemoteResult α :=
  match t with
  | .ok r => r
  | .urlError e => ⟨false, none, some e⟩

/-- The parsed `/health` response body. -/
structure HealthResponse where
  status : String
  error : Option String
deriving DecidableEq, Repr

/-- `health_check`: relay the server response; on `URLError` return
`{"status": "error", "error": str(e)}`. -/
def health_check (t : Transport HealthResponse) : HealthResponse :=
  match t with
  | .ok r => r
  | .urlError e => ⟨"error", some e⟩

/-- The `if result.get("success"): return result["result"]; return []`
pattern shared by the three query helpers.  On a successful response the
server always populates `result` (the snippet returns a value); the
`getD` default only pads the unreachable success-without-result case. -/
def queryOrEmpty {α : Type} (r : RemoteResult (List α)) : List α :=
  if r.success then r.result.getD [] else []

/-- `get_images` as the caller sees it: run `eval_code` and fall back to
`[]` unless the outcome has `success` truthy. -/
def get_images (t : Transport (RemoteResult (List ImageInfo))) :
    List ImageInfo :=
  queryOrEmpty (eval_code t)

/-- `detect_annotations` as the caller sees it: `[]` unless `success`. -/
def detect_annotations
    (t : Transport (RemoteResult (List (String × List Shape)))) :
    List (String × List Shape) :=
  queryOrEmpty (eval_code t)

/-- `get_latest_images` as the caller sees it: `[]` unless `success`. -/
def get_latest_images (t : Transport (RemoteResult (List ImageInfo))) :
    List ImageInfo :=
  queryOrEmpty (eval_code t)

/-! ## Claims -/

/-- C1, counterexample.  The claim says that for every non-empty set of
existing image shapes the new `y` is `max (y + height) + 160`.  The
loop's accumulator starts at `0`, so for a single image at `y = -500`
with `height = 100` (maximum bottom `-500 + 100 = -400`) the code places
at `y = 0 + 160 = 160`, not `-400 + 160 = -240`. -/
theorem C1_counterexample :
    (placePosition
      [⟨"shape:a", "image", 100, -500, .image 10 100 "asset:a"⟩]).2 ≠
      ((-500 : ℚ) + 100) + 160 := by
  norm_num [placePosition, imagesOf, maxBottomStep, ShapeProps.h]

/-- C1 (amended): with no existing image shapes, `place_image` without
explicit coordinates places at `(100, 100)`; with a non-empty set of
existing image shapes whose maximum bottom (over `y + height`) is `B`,
it places at `x = 100`, `y = max 0 B + 160` — the claimed `B + 160`
exactly when `B ≥ 0`, because the maximum is accumulated starting
from `0`. -/
theorem C1_place_image_stacking :
    (∀ shapes : List Shape,
      imagesOf shapes = [] → placePosition shapes = (100, 100)) ∧
    (∀ (shapes : List Shape) (B : ℚ),
      imagesOf shapes ≠ [] →
      (∀ s ∈ imagesOf shapes, s.y + s.props.h ≤ B) →
      (∃ s ∈ imagesOf shapes, s.y + s.props.h = B) →
      placePosition shapes = (100, max 0 B + 160)) := by
  constructor
  · intro shapes h
    simp [placePosition, h]
  · rintro shapes B hne hub ⟨s₀, hs₀, hs₀B⟩
    obtain ⟨h0, hub', hcases⟩ := maxBottom_fold_spec (imagesOf shapes) 0
    have hmB : (imagesOf shapes).foldl maxBottomStep 0 = max 0 B := by
      apply le_antisymm
      · rcases hcases with h | ⟨s, hs, hval⟩
        · rw [h]; exact le_max_left 0 B
        · rw [hval]; exact le_trans (hub s hs) (le_max_right 0 B)
      · exact max_le h0 (hs₀B ▸ hub' s₀ hs₀)
    have hlen : 0 < (imagesOf shapes).length := List.length_pos.mpr hne
    simp only [placePosition]
    rw [if_pos hlen, hmB]

/-- Witness for C1: one existing image at `(100, 100)` with display size
`400 × 300` — the spec's scenario — yields position
`(100, max 0 400 + 160) = (100, 560)`. -/
theorem C1_place_image_stacking_witness :
    placePosition
      [⟨"shape:seed-img-1", "image", 100, 100, .image 400 300 "asset:a"⟩] =
      (100, max 0 400 + 160) :=
  C1_place_image_stacking.2
    [⟨"shape:seed-img-1", "image", 100, 100, .image 400 300 "asset:a"⟩]
    400 (by simp [imagesOf]) (by norm_num [imagesOf, ShapeProps.h])
    (by norm_num [imagesOf, ShapeProps.h])

/-- C2: the overlap test used by `detect_annotations` holds iff
`sb.x < fb.x + fb.w ∧ sb.x + sb.w > fb.x ∧ sb.y < fb.y + fb.h ∧
sb.y + sb.h > fb.y`, all strict; consequently any two regions separated
(weakly) along some axis — which covers disjoint regions, regions
touching only at an edge, and zero-width touching — are reported as
overlapping in neither direction, and a shape whose page bounds are so
separated from a frame's bounds is never in that frame's annotation
list. -/
theorem C2_overlap_test :
    (∀ fb sb : Region, overlapTest fb sb = true ↔
      (sb.x < fb.x + fb.w ∧ sb.x + sb.w > fb.x ∧
       sb.y < fb.y + fb.h ∧ sb.y + sb.h > fb.y)) ∧
    (∀ fb sb : Region,
      (sb.x + sb.w ≤ fb.x ∨ fb.x + fb.w ≤ sb.x ∨
       sb.y + sb.h ≤ fb.y ∨ fb.y + fb.h ≤ sb.y) →
      overlapTest fb sb = false ∧ overlapTest sb fb = false) ∧
    (∀ (allShapes : List Shape) (bounds : String → Option Region)
        (fb : Region) (s : Shape) (sb : Region),
      bounds s.id = some sb →
      (sb.x + sb.w ≤ fb.x ∨ fb.x + fb.w ≤ sb.x ∨
       sb.y + sb.h ≤ fb.y ∨ fb.y + fb.h ≤ sb.y) →
      s ∉ frameAnnotations allShapes bounds fb) := by
  have hiff : ∀ fb sb : Region, overlapTest fb sb = true ↔
      (sb.x < fb.x + fb.w ∧ sb.x + sb.w > fb.x ∧
       sb.y < fb.y + fb.h ∧ sb.y + sb.h > fb.y) := by
    intro fb sb
    simp [overlapTest, and_assoc]
  have hsep : ∀ fb sb : Region,
      (sb.x + sb.w ≤ fb.x ∨ fb.x + fb.w ≤ sb.x ∨
       sb.y + sb.h ≤ fb.y ∨ fb.y + fb.h ≤ sb.y) →
      overlapTest fb sb = false ∧ overlapTest sb fb = false := by
    intro fb sb h
    constructor
    · rw [← Bool.not_eq_true, hiff fb sb]
      push_neg
      intro h₁ h₂ h₃
      rcases h with h | h | h | h <;> intros <;> linarith
    · rw [← Bool.not_eq_true, hiff sb fb]
      push_neg
      intro h₁ h₂ h₃
      rcases h with h | h | h | h <;> intros <;> linarith
  refine ⟨hiff, hsep, ?_⟩
  intro allShapes bounds fb s sb hb h hmem
  have hp := (List.mem_filter.mp hmem).2
  rw [Bool.and_eq_true] at hp
  have := hp.2
  rw [hb] at this
  exact absurd this (by simp [(hsep fb sb h).1])

/-- Witness for C2: the unit frame `(0,0,10,10)` and a candidate
`(10,0,5,5)` touching it exactly along its right edge are separated
along the x axis, hence reported as overlapping in neither direction. -/
theorem C2_overlap_test_witness :
    overlapTest ⟨0, 0, 10, 10⟩ ⟨10, 0, 5, 5⟩ = false ∧
    overlapTest ⟨10, 0, 5, 5⟩ ⟨0, 0, 10, 10⟩ = false :=
  C2_overlap_test.2.1 ⟨0, 0, 10, 10⟩ ⟨10, 0, 5, 5⟩
    (Or.inr (Or.inl (by norm_num)))

/-- C3: `detect_annotations` never reports a scaffold element as an
annotation — a shape on the page whose id starts with `shape:frame-`,
`shape:label-` or `shape:evolve-arrow-`, or whose type is `image`, is in
the exclude set and hence in no frame's annotation list, for every frame
and every bounds oracle. -/
theorem C3_scaffold_excluded :
    ∀ (allShapes : List Shape) (bounds : String → Option Region)
      (s : Shape),
      s ∈ allShapes →
      (strStartsWith s.id "shape:frame-" = true ∨
       strStartsWith s.id "shape:label-" = true ∨
       strStartsWith s.id "shape:evolve-arrow-" = true ∨
       s.type = "image") →
      ∀ entry ∈ detectAnnotationsRemote allShapes bounds, s ∉ entry.2 := by
  intro allShapes bounds s hsmem hscaffold entry hentry hsin
  have hexc : inExcludeSet allShapes s.id = true := by
    rw [inExcludeSet, List.any_eq_true]
    refine ⟨s, hsmem, ?_⟩
    rw [Bool.and_eq_true]
    refine ⟨beq_self_eq_true s.id, ?_⟩
    simp only [Bool.or_eq_true]
    rcases hscaffold with h | h | h | h
    · exact Or.inl (Or.inl (Or.inl h))
    · exact Or.inl (Or.inl (Or.inr h))
    · exact Or.inl (Or.inr h)
    · exact Or.inr (by simp [h])
  obtain ⟨frame, hframe, hf⟩ := List.mem_filterMap.mp hentry
  rcases hfb : bounds frame.id with _ | fb
  · rw [hfb] at hf
    exact absurd hf (by simp)
  · rw [hfb] at hf
    have hentry2 : entry.2 = frameAnnotations allShapes bounds fb := by
      cases Option.some.inj hf
      rfl
    rw [hentry2] at hsin
    have hp := (List.mem_filter.mp hsin).2
    rw [Bool.and_eq_true] at hp
    have := hp.1
    rw [hexc] at this
    simp at this

/-- Witness for C3: a page holding one frame shape and one text shape
whose bounds coincide with the frame's — `detect_annotations` reports
exactly the text shape, and the frame shape itself is not in the
annotation list. -/
theorem C3_scaffold_excluded_witness :
    (⟨"shape:frame-0", "geo", 40, 20, .geo 520 440⟩ : Shape) ∉
      (("shape:frame-0",
        ([⟨"note", "text", 50, 50, .text "fix this"⟩] : List Shape)) :
        String × List Shape).2 := by
  have hentry : (("shape:frame-0",
      ([⟨"note", "text", 50, 50, .text "fix this"⟩] : List Shape)) :
        String × List Shape) ∈
      detectAnnotationsRemote
        [⟨"shape:frame-0", "geo", 40, 20, .geo 520 440⟩,
         ⟨"note", "text", 50, 50, .text "fix this"⟩]
        (fun _ => some ⟨0, 0, 100, 100⟩) := by
    norm_num [detectAnnotationsRemote, frameAnnotations, inExcludeSet,
      overlapTest, strStartsWith]
    exact Or.inl (by decide)
  exact C3_scaffold_excluded
    [⟨"shape:frame-0", "geo", 40, 20, .geo 520 440⟩,
     ⟨"note", "text", 50, 50, .text "fix this"⟩]
    (fun _ => some ⟨0, 0, 100, 100⟩)
    ⟨"shape:frame-0", "geo", 40, 20, .geo 520 440⟩
    (by simp)
    (Or.inl (by decide))
    ("shape:frame-0", [⟨"note", "text", 50, 50, .text "fix this"⟩])
    hentry

/-- Helper for C4: every pair produced by the `create_frames` loop is
the frame/label pair of one of the images it was run over. -/
theorem mem_createFramesAux (pfx iterLabel : String)
    (padding topPadding : ℚ) :
    ∀ (l : List Shape) (i : ℕ)
      (fl : Shape × Shape),
      fl ∈ createFramesAux pfx iterLabel padding topPadding i l →
      ∃ img ∈ l, ∃ j : ℕ,
        fl = (frameShapeFor pfx j img padding topPadding,
              labelShapeFor pfx j img topPadding iterLabel) := by
  intro l
  induction l with
  | nil => intro i fl h; simp [createFramesAux] at h
  | cons img rest ih =>
      intro i fl h
      rw [createFramesAux] at h
      rcases List.mem_cons.mp h with rfl | h
      · exact ⟨img, List.mem_cons_self img rest, i, rfl⟩
      · obtain ⟨img', hmem, j, hj⟩ := ih (i + 1) fl h
        exact ⟨img', List.mem_cons_of_mem img hmem, j, hj⟩

/-- C4: every frame `create_frames` creates around an image, and the
frame `place_evolved_image` creates around the new image, is exactly
`(x - padding, y - topPadding, width + 2*padding,
height + topPadding + padding)` of the image's region (with the fixed
`padding = 60`, `topPadding = 80` in the evolved case); and for
`padding = 60`, `topPadding = 80` the frame of any region with
nonnegative width and height strictly contains that region. -/
theorem C4_frame_sizing :
    (∀ (shapes : List Shape) (padding topPadding : ℚ)
        (pfx iterLabel : String),
      ∀ fl ∈ create_frames shapes padding topPadding pfx iterLabel,
        ∃ img ∈ shapes, img.type = "image" ∧
          shapeRegion fl.1 = frameRegion (shapeRegion img) padding topPadding) ∧
    (∀ (shapes : List Shape) (origShapeId : String)
        (iteration candidateNum : ℤ) (gap : ℚ) (nat : ImgDims)
        (rand1 rand2 : String) (newImg arrow frame label : Shape),
      (place_evolved_image shapes origShapeId iteration candidateNum gap
        nat rand1 rand2).2 = [newImg, arrow, frame, label] →
      shapeRegion frame = frameRegion (shapeRegion newImg) 60 80) ∧
    (∀ r : Region, 0 ≤ r.w → 0 ≤ r.h →
      strictlyContains (frameRegion r 60 80) r) := by
  refine ⟨?_, ?_, ?_⟩
  · intro shapes padding topPadding pfx iterLabel fl hfl
    obtain ⟨img, hmem, j, hj⟩ :=
      mem_createFramesAux pfx iterLabel padding topPadding _ 0 fl hfl
    have hmem' := (mem_sortLE _ img _).mp hmem
    have himg := List.mem_filter.mp hmem'
    refine ⟨img, himg.1, by simpa using himg.2, ?_⟩
    rw [hj]
    rfl
  · intro shapes origShapeId iteration candidateNum gap nat rand1 rand2
      newImg arrow frame label h
    rcases hfind : (imagesOf shapes).find? (fun s => s.id == origShapeId)
      with _ | orig
    · simp [place_evolved_image, hfind] at h
    · simp only [place_evolved_image, hfind] at h
      obtain ⟨h₁, h₂, h₃, h₄⟩ := by simpa using h
      subst h₁
      subst h₃
      rfl
  · intro r hw hh
    refine ⟨?_, ?_, ?_, ?_⟩ <;> simp [frameRegion] <;> linarith

/-- Witness for C4: the region `(100, 100, 400, 300)` has nonnegative
width and height, and its frame `(40, 20, 520, 440)` strictly contains
it. -/
theorem C4_frame_sizing_witness :
    strictlyContains (frameRegion ⟨100, 100, 400, 300⟩ 60 80)
      ⟨100, 100, 400, 300⟩ :=
  C4_frame_sizing.2.2 ⟨100, 100, 400, 300⟩ (by norm_num) (by norm_num)

/-- Helper for C5: the head of the stable descending-`x` sort of a row
(`row.sort((a, b) => b.x - a.x); row[0]`) is a member of the row of
maximal `x`. -/
theorem head_sortByXDesc (row : List Shape) (s0 : Shape)
    (h : (sortLE (fun a b => b.x ≤ a.x) row).head? = some s0) :
    s0 ∈ row ∧ ∀ t ∈ row, t.x ≤ s0.x := by
  have htot : ∀ x y : Shape,
      (fun a b : Shape => (b.x ≤ a.x : Bool)) x y = true ∨
      (fun a b : Shape => (b.x ≤ a.x : Bool)) y x = true := by
    intro x y
    simp only [decide_eq_true_eq]
    exact le_total y.x x.x
  have htrans : ∀ x y z : Shape,
      (fun a b : Shape => (b.x ≤ a.x : Bool)) x y = true →
      (fun a b : Shape => (b.x ≤ a.x : Bool)) y z = true →
      (fun a b : Shape => (b.x ≤ a.x : Bool)) x z = true := by
    intro x y z h₁ h₂
    simp only [decide_eq_true_eq] at h₁ h₂ ⊢
    exact le_trans h₂ h₁
  cases hl : sortLE (fun a b => b.x ≤ a.x) row with
  | nil => rw [hl] at h; simp at h
  | cons a tl =>
      rw [hl] at h
      have ha : a = s0 := by simpa using h
      subst ha
      have hpw := pairwise_sortLE (fun a b : Shape => (b.x ≤ a.x : Bool))
        htot htrans row
      rw [hl] at hpw
      rcases List.pairwise_cons.mp hpw with ⟨hhead, _⟩
      constructor
      · exact (mem_sortLE _ a _).mp (hl ▸ List.mem_cons_self a tl)
      · intro t ht
        have hmem := (mem_sortLE (fun a b : Shape => (b.x ≤ a.x : Bool))
          t row).mpr ht
        rw [hl] at hmem
        rcases List.mem_cons.mp hmem with rfl | htl
        · exact le_refl _
        · simpa using hhead t htl

/-- C5: `get_latest_images` buckets images by
`Math.round(y / 50) * 50` (so `y = 100` and `y = 104` share bucket 100
while `y = 130` lands in bucket 150), picks from each row an element of
maximal `x`, covers every image's bucket, and returns the selections in
ascending `y` order. -/
theorem C5_latest_images :
    (rowKey 100 = 100 ∧ rowKey 104 = 100 ∧ rowKey 130 = 150) ∧
    (∀ shapes : List Shape, ∀ info ∈ getLatestImagesRemote shapes,
      ∃ s ∈ shapes, s.type = "image" ∧ info = imageInfoOf s ∧
        ∀ t ∈ shapes, t.type = "image" → rowKey t.y = rowKey s.y →
          t.x ≤ s.x) ∧
    (∀ shapes : List Shape,
      (getLatestImagesRemote shapes).Pairwise (fun a b => a.y ≤ b.y)) ∧
    (∀ shapes : List Shape, ∀ t ∈ shapes, t.type = "image" →
      ∃ info ∈ getLatestImagesRemote shapes,
        rowKey info.y = rowKey t.y) := by
  refine ⟨⟨?_, ?_, ?_⟩, ?_, ?_, ?_⟩
  · norm_num [rowKey, jsRound]
  · norm_num [rowKey, jsRound]
  · norm_num [rowKey, jsRound]
  · intro shapes info hinfo
    simp only [getLatestImagesRemote] at hinfo
    have hinfo' := (mem_sortLE _ info _).mp hinfo
    obtain ⟨k, hk, hfk⟩ := List.mem_filterMap.mp hinfo'
    obtain ⟨s0, hs0head, hs0eq⟩ := Option.map_eq_some'.mp hfk
    obtain ⟨hs0row, hs0max⟩ := head_sortByXDesc _ s0 hs0head
    have hs0img := List.mem_filter.mp hs0row
    have hs0key : rowKey s0.y = k := by simpa using hs0img.2
    have hs0shape := List.mem_filter.mp hs0img.1
    refine ⟨s0, hs0shape.1, by simpa using hs0shape.2, hs0eq.symm, ?_⟩
    intro t ht httype hkey
    have htimg : t ∈ imagesOf shapes :=
      List.mem_filter.mpr ⟨ht, by simp [httype]⟩
    have htrow : t ∈ (imagesOf shapes).filter
        (fun s => rowKey s.y == k) :=
      List.mem_filter.mpr ⟨htimg, by simp [hkey, hs0key]⟩
    exact hs0max t htrow
  · intro shapes
    have htot : ∀ x y : ImageInfo,
        (fun a b : ImageInfo => (a.y ≤ b.y : Bool)) x y = true ∨
        (fun a b : ImageInfo => (a.y ≤ b.y : Bool)) y x = true := by
      intro x y
      simp only [decide_eq_true_eq]
      exact le_total x.y y.y
    have htrans : ∀ x y z : ImageInfo,
        (fun a b : ImageInfo => (a.y ≤ b.y : Bool)) x y = true →
        (fun a b : ImageInfo => (a.y ≤ b.y : Bool)) y z = true →
        (fun a b : ImageInfo => (a.y ≤ b.y : Bool)) x z = true := by
      intro x y z h₁ h₂
      simp only [decide_eq_true_eq] at h₁ h₂ ⊢
      exact le_trans h₁ h₂
    simp only [getLatestImagesRemote]
    exact (pairwise_sortLE _ htot htrans _).imp (by
      intro a b hab
      simpa using hab)
  · intro shapes t ht httype
    have htimg : t ∈ imagesOf shapes :=
      List.mem_filter.mpr ⟨ht, by simp [httype]⟩
    have hk : rowKey t.y ∈
        ((imagesOf shapes).map (fun s => rowKey s.y)).dedup :=
      List.mem_dedup.mpr (List.mem_map.mpr ⟨t, htimg, rfl⟩)
    have htrow : t ∈ (imagesOf shapes).filter
        (fun s => rowKey s.y == rowKey t.y) :=
      List.mem_filter.mpr ⟨htimg, by simp⟩
    cases hl : sortLE (fun a b => b.x ≤ a.x)
        ((imagesOf shapes).filter (fun s => rowKey s.y == rowKey t.y)) with
    | nil =>
        have := (mem_sortLE (fun a b : Shape => (b.x ≤ a.x : Bool))
          t _).mpr htrow
        rw [hl] at this
        simp at this
    | cons s0 tl =>
        have hhead : (sortLE (fun a b => b.x ≤ a.x)
            ((imagesOf shapes).filter
              (fun s => rowKey s.y == rowKey t.y))).head? = some s0 := by
          rw [hl]; rfl
        obtain ⟨hs0row, _⟩ := head_sortByXDesc _ s0 hhead
        have hs0key : rowKey s0.y = rowKey t.y := by
          simpa using (List.mem_filter.mp hs0row).2
        refine ⟨imageInfoOf s0, ?_, ?_⟩
        · simp only [getLatestImagesRemote]
          refine (mem_sortLE _ _ _).mpr ?_
          refine List.mem_filterMap.mpr ⟨rowKey t.y, hk, ?_⟩
          rw [hhead]
          rfl
        · simpa [imageInfoOf] using hs0key

/-- Witness for C5: on a canvas with images at `y = 100`, `y = 104` and
`y = 130`, every image's bucket is represented in the output — here
instantiated for the image at `y = 104` (bucket 100). -/
theorem C5_latest_images_witness :
    ∃ info ∈ getLatestImagesRemote
      [⟨"a", "image", 100, 100, .image 400 300 "asset:a"⟩,
       ⟨"b", "image", 620, 104, .image 400 300 "asset:b"⟩,
       ⟨"c", "image", 100, 130, .image 400 300 "asset:c"⟩],
      rowKey info.y = rowKey 104 :=
  C5_latest_images.2.2.2
    [⟨"a", "image", 100, 100, .image 400 300 "asset:a"⟩,
     ⟨"b", "image", 620, 104, .image 400 300 "asset:b"⟩,
     ⟨"c", "image", 100, 130, .image 400 300 "asset:c"⟩]
    ⟨"b", "image", 620, 104, .image 400 300 "asset:b"⟩
    (by simp)
    rfl

/-- C6: the display height computed by the placement snippets —
`Math.round(naturalHeight * (displayWidth / naturalWidth))` — equals
`round(naturalHeight * displayWidth / naturalWidth)`; in particular
`naturalWidth = 800`, `naturalHeight = 600`, `displayWidth = 400` yields
`300`.  Both `place_image` and `place_evolved_image` give the created
image shape exactly this `props.h` (the evolved image inherits the
original's display width). -/
theorem C6_display_height :
    (∀ nW nH dW : ℚ, 0 < nW → 0 < nH → 0 < dW →
      displayHeight nW nH dW = (jsRound (nH * dW / nW) : ℚ)) ∧
    displayHeight 800 600 400 = 300 ∧
    (∀ (shapes : List Shape) (nat : ImgDims) (dW : ℚ)
        (sidPart assetIdPart : String) (explicitPos : Option (ℚ × ℚ)),
      (place_image shapes nat dW sidPart assetIdPart explicitPos).props.h =
        displayHeight nat.naturalWidth nat.naturalHeight dW) ∧
    (∀ (shapes : List Shape) (origShapeId : String)
        (iteration candidateNum : ℤ) (gap : ℚ) (nat : ImgDims)
        (rand1 rand2 : String) (orig : Shape),
      (imagesOf shapes).find? (fun s => s.id == origShapeId) = some orig →
      (place_evolved_image shapes origShapeId iteration candidateNum gap
        nat rand1 rand2).1.displayH =
        some (displayHeight nat.naturalWidth nat.naturalHeight
          orig.props.w)) := by
  refine ⟨?_, ?_, ?_, ?_⟩
  · intro nW nH dW _ _ _
    rw [displayHeight, mul_div_assoc]
  · norm_num [displayHeight, jsRound]
  · intro shapes nat dW sidPart assetIdPart explicitPos
    rfl
  · intro shapes origShapeId iteration candidateNum gap nat rand1 rand2
      orig hfind
    simp only [place_evolved_image, hfind]
    rfl

/-- Witness for C6: at `naturalWidth = 800`, `naturalHeight = 600`,
`displayWidth = 400` (all positive) the two expressions agree. -/
theorem C6_display_height_witness :
    displayHeight 800 600 400 = (jsRound ((600 : ℚ) * 400 / 800) : ℚ) :=
  C6_display_height.1 800 600 400 (by norm_num) (by norm_num) (by norm_num)

/-- C7: when the original image is found, `place_evolved_image` creates
the new image at `x = orig.x + orig.props.w + gap`, `y = orig.y`, with
the original's display width, and an arrow anchored at the original's
right edge and vertical middle whose relative endpoint `gap - 20`
falls 20 units short of the new image's left edge. -/
theorem C7_evolved_placement :
    ∀ (shapes : List Shape) (origShapeId : String)
      (iteration candidateNum : ℤ) (gap : ℚ) (nat : ImgDims)
      (rand1 rand2 : String) (orig : Shape),
      (imagesOf shapes).find? (fun s => s.id == origShapeId) = some orig →
      ∃ newImg arrow frame label : Shape,
        (place_evolved_image shapes origShapeId iteration candidateNum gap
          nat rand1 rand2).2 = [newImg, arrow, frame, label] ∧
        newImg.type = "image" ∧
        newImg.x = orig.x + orig.props.w + gap ∧
        newImg.y = orig.y ∧
        newImg.props.w = orig.props.w ∧
        arrow.type = "arrow" ∧
        arrow.x = orig.x + orig.props.w ∧
        arrow.y = orig.y + orig.props.h / 2 ∧
        arrowEndX arrow = gap - 20 ∧
        arrow.x + arrowEndX arrow = newImg.x - 20 := by
  intro shapes origShapeId iteration candidateNum gap nat rand1 rand2
    orig hfind
  simp only [place_evolved_image, hfind]
  exact ⟨_, _, _, _, rfl, rfl, rfl, rfl, rfl, rfl, rfl, rfl, rfl, by
    show orig.x + orig.props.w + (gap - 20) = orig.x + orig.props.w + gap - 20
    ring⟩

/-- Witness for C7: a canvas holding one image
(`shape:seed-img-1` at `(100, 100)`, display `400 × 300`) and the
default gap 120. -/
theorem C7_evolved_placement_witness :
    ∃ newImg arrow frame label : Shape,
      (place_evolved_image
        [⟨"shape:seed-img-1", "image", 100, 100, .image 400 300 "asset:a"⟩]
        "shape:seed-img-1" 1 1 120 ⟨800, 600⟩ "r1" "r2").2 =
        [newImg, arrow, frame, label] ∧
      newImg.type = "image" ∧
      newImg.x = (⟨"shape:seed-img-1", "image", 100, 100,
        .image 400 300 "asset:a"⟩ : Shape).x +
        (⟨"shape:seed-img-1", "image", 100, 100,
          .image 400 300 "asset:a"⟩ : Shape).props.w + 120 ∧
      newImg.y = (⟨"shape:seed-img-1", "image", 100, 100,
        .image 400 300 "asset:a"⟩ : Shape).y ∧
      newImg.props.w = (⟨"shape:seed-img-1", "image", 100, 100,
        .image 400 300 "asset:a"⟩ : Shape).props.w ∧
      arrow.type = "arrow" ∧
      arrow.x = (⟨"shape:seed-img-1", "image", 100, 100,
        .image 400 300 "asset:a"⟩ : Shape).x +
        (⟨"shape:seed-img-1", "image", 100, 100,
          .image 400 300 "asset:a"⟩ : Shape).props.w ∧
      arrow.y = (⟨"shape:seed-img-1", "image", 100, 100,
        .image 400 300 "asset:a"⟩ : Shape).y +
        (⟨"shape:seed-img-1", "image", 100, 100,
          .image 400 300 "asset:a"⟩ : Shape).props.h / 2 ∧
      arrowEndX arrow = 120 - 20 ∧
      arrow.x + arrowEndX arrow = newImg.x - 20 :=
  C7_evolved_placement
    [⟨"shape:seed-img-1", "image", 100, 100, .image 400 300 "asset:a"⟩]
    "shape:seed-img-1" 1 1 120 ⟨800, 600⟩ "r1" "r2"
    ⟨"shape:seed-img-1", "image", 100, 100, .image 400 300 "asset:a"⟩
    (by simp [imagesOf])

/-- C8: a transport failure (`URLError`: remote unreachable, request
error) makes `eval_code` return `{"success": False, "error": str(e)}`
and `health_check` return `{"status": "error", "error": str(e)}`; both
functions are total on the transport outcome, so neither raises. -/
theorem C8_transport_failure :
    (∀ (α : Type) (e : String),
      eval_code (α := α) (.urlError e) =
        ⟨false, none, some e⟩) ∧
    (∀ e : String, health_check (.urlError e) = ⟨"error", some e⟩) :=
  ⟨fun _ _ => rfl, fun _ => rfl⟩

/-- C9: when no image shape on the canvas carries the referenced
original id, `place_evolved_image` returns the descriptive string
`original not found: <id>` and creates no shapes. -/
theorem C9_not_found :
    ∀ (shapes : List Shape) (origShapeId : String)
      (iteration candidateNum : ℤ) (gap : ℚ) (nat : ImgDims)
      (rand1 rand2 : String),
      (∀ s ∈ shapes, s.type = "image" → s.id ≠ origShapeId) →
      place_evolved_image shapes origShapeId iteration candidateNum gap
        nat rand1 rand2 =
        (.notFound ("original not found: " ++ origShapeId), []) := by
  intro shapes origShapeId iteration candidateNum gap nat rand1 rand2 h
  have hfind : (imagesOf shapes).find? (fun s => s.id == origShapeId) =
      none := by
    rw [List.find?_eq_none]
    intro s hs
    have hmem := List.mem_filter.mp hs
    simpa using h s hmem.1 (by simpa using hmem.2)
  simp [place_evolved_image, hfind]

/-- Witness for C9: a canvas with one image `shape:seed-img-1`, queried
for the absent id `shape:missing`. -/
theorem C9_not_found_witness :
    place_evolved_image
      [⟨"shape:seed-img-1", "image", 100, 100, .image 400 300 "asset:a"⟩]
      "shape:missing" 1 1 120 ⟨800, 600⟩ "r1" "r2" =
      (.notFound ("original not found: " ++ "shape:missing"), []) :=
  C9_not_found
    [⟨"shape:seed-img-1", "image", 100, 100, .image 400 300 "asset:a"⟩]
    "shape:missing" 1 1 120 ⟨800, 600⟩ "r1" "r2"
    (by
      intro s hs _
      rcases List.mem_singleton.mp hs with rfl
      decide)

/-- C10: whenever the outcome relayed by `eval_code` has `success`
false (which covers transport failure and a missing flag alike), the
query helpers `get_images`, `detect_annotations` and
`get_latest_images` all return `[]` — exactly the value their snippets
produce on a successful run over an empty canvas, so the caller cannot
tell a failed query from a canvas with no matching shapes. -/
theorem C10_failure_empty :
    (∀ t : Transport (RemoteResult (List ImageInfo)),
      (eval_code t).success = false → get_images t = []) ∧
    (∀ t : Transport (RemoteResult (List (String × List Shape))),
      (eval_code t).success = false → detect_annotations t = []) ∧
    (∀ t : Transport (RemoteResult (List ImageInfo)),
      (eval_code t).success = false → get_latest_images t = []) ∧
    getImagesRemote [] = [] ∧
    (∀ bounds : String → Option Region,
      detectAnnotationsRemote [] bounds = []) ∧
    getLatestImagesRemote [] = [] := by
  refine ⟨?_, ?_, ?_, rfl, fun _ => rfl, rfl⟩ <;>
    · intro t h
      simp [get_images, detect_annotations, get_latest_images,
        queryOrEmpty, h]

/-- Witness for C10: an unreachable server (`URLError`) yields a
failure outcome, and `get_images` returns `[]` on it. -/
theorem C10_failure_empty_witness :
    get_images (.urlError "connection refused") = [] :=
  C10_failure_empty.1 (.urlError "connection refused") rfl

end EvalHelper
